import Mathlib

/-!
Verification of the modernbuilder builder-core specification against the
repository source.

The embedding models:
* the element tree data model and `findElementById` / `isPremiumElement` /
  `isEnterpriseElement` from `src/contexts/builder/elementUtils.ts`;
* the drag-drop handler `handleDrop` (and its helper `findElementIndex`)
  of `CanvasDragDropHandler` from
  `src/components/builder/elements/navigation/NavbarElement.tsx`;
* `ensureRequiredPages`, the page-content loading effect, the
  save-completion commit (`handleSaveComplete`) and `updateSaveStatus`
  from `src/pages/Builder.tsx` (the identical `updateSaveStatus` also
  appears in `src/pages/builder/Shop.tsx`).

The Element Tree Store mutations (`addElement`, `moveElement`,
`removeElement`) live in the builder context (`BuilderProvider`), whose
source is not part of the repository snapshot; they are modelled from the
specification (section 4.1) and are marked as such below.  JavaScript
objects used as keyed maps (`pagesContent`, `pagesSettings`) are modelled
as functions `String → Option _`; string/number/boolean prop values are
abstracted to strings, which no modelled operation inspects.
-/

/-- A node of the builder tree, after `BuilderElement` in
`src/contexts/builder/types`: `id`, `type`, optional text `content`
(absent modelled as `""`), open `props` mapping and ordered `children`. -/
structure BuilderElement where
  id : String
  type : String
  content : String
  props : List (String × String)
  children : List BuilderElement
deriving Repr

/-- Kernel-computable lower-casing used to model
JavaScript `String.prototype.toLowerCase()` on the ASCII titles that the
code compares ("home", "shop", "about"). -/
def lowerStr (s : String) : String := String.mk (s.data.map Char.toLower)

/-- `isPremiumElement` from `src/contexts/builder/elementUtils.ts`:
membership of the element type in the premium catalog. -/
def isPremiumElement (elementType : String) : Bool :=
  let premiumElements : List String :=
    ["PricingElement",
     "FeatureTableElement",
     "AnimatedHeroElement",
     "TestimonialsCarouselElement",
     "AdvancedGalleryElement",
     "TeamMembersElement",
     "StatisticsElement",
     "AnimatedCounterElement",
     "ParallaxSectionElement",
     "InteractiveCardsElement",
     "AnimatedTimelineElement",
     "FloatingShapesElement",
     "GradientBackgroundElement",
     "fadeInElement",
     "slideInElement",
     "scaleInElement",
     "animatedHeading",
     "animatedSection"]
  premiumElements.contains elementType

/-- `isEnterpriseElement` from `src/contexts/builder/elementUtils.ts`:
membership of the element type in the enterprise-only catalog. -/
def isEnterpriseElement (elementType : String) : Bool :=
  let enterpriseElements : List String :=
    ["CustomFormElement",
     "3DModelElement",
     "DataVisualizationElement",
     "InteractiveMapElement",
     "AnimatedParticlesElement",
     "WebGLBackgroundElement",
     "LottieAnimationElement",
     "AdvancedChartElement",
     "VideoBackgroundElement",
     "SVGAnimationElement",
     "ScrollTriggeredElement",
     "particlesBackground",
     "scrollReveal"]
  enterpriseElements.contains elementType

mutual

/-- One loop iteration of `findElementById` from
`src/contexts/builder/elementUtils.ts`: check the element itself, then
search its `children`. -/
def findInElem : BuilderElement → String → Option BuilderElement
  | ⟨eid, t, c, p, children⟩, i =>
    if eid = i then some ⟨eid, t, c, p, children⟩ else findElementById children i

/-- `findElementById` from `src/contexts/builder/elementUtils.ts`:
for each element of the sequence, return it if its `id` matches, else
recurse into its `children`; `null` (here `none`) if nothing matches. -/
def findElementById : List BuilderElement → String → Option BuilderElement
  | [], _ => none
  | e :: rest, i =>
    match findInElem e i with
    | some f => some f
    | none => findElementById rest i

end

mutual

/-- Depth-first pre-order flattening of a single element: the element
itself followed by the flattening of its children.  Used to state what
"depth-first pre-order search" means for claim C8. -/
def preorderElem : BuilderElement → List BuilderElement
  | ⟨eid, t, c, p, children⟩ => ⟨eid, t, c, p, children⟩ :: preorderList children

/-- Depth-first pre-order flattening of an element sequence. -/
def preorderList : List BuilderElement → List BuilderElement
  | [] => []
  | e :: rest => preorderElem e ++ preorderList rest

end

mutual

/-- Number of occurrences of an id inside one element (itself plus its
descendants). -/
def countIdElem (i : String) : BuilderElement → Nat
  | ⟨eid, _, _, _, children⟩ => (if eid = i then 1 else 0) + countIdList i children

/-- Number of occurrences of an id in an element sequence, descendants
included. -/
def countIdList (i : String) : List BuilderElement → Nat
  | [] => 0
  | e :: es => countIdElem i e + countIdList i es

end

/-- Clamp an integer index into `[0, len]` (spec 4.1: "`index` is clamped
into `[0, length]`"). -/
def clampIndex (len : Nat) (i : Int) : Nat := (min (max i 0) (len : Int)).toNat

/-- Insert at a (already clamped) position, shifting later siblings. -/
def insertAt (l : List BuilderElement) (i : Nat) (a : BuilderElement) :
    List BuilderElement :=
  l.take i ++ a :: l.drop i

/-- Insertion into one sequence: append when the index is omitted,
otherwise insert at the clamped index (spec 4.1 `insert`). -/
def insertSeq (l : List BuilderElement) (index : Option Int) (a : BuilderElement) :
    List BuilderElement :=
  match index with
  | none => l ++ [a]
  | some i => insertAt l (clampIndex l.length i) a

mutual

/-- Modelled from the spec: `insert` into the `children` of the node
matching `containerId` (spec 4.1); the implementation lives in the
builder context (`BuilderProvider`), which is not part of the source
snapshot.  Ids are unique per the spec invariant, so at most one node
receives the insertion. -/
def insertIntoElem (cid : String) (index : Option Int) (a : BuilderElement) :
    BuilderElement → BuilderElement
  | ⟨eid, t, c, p, children⟩ =>
    if eid = cid then ⟨eid, t, c, p, insertSeq children index a⟩
    else ⟨eid, t, c, p, insertIntoList cid index a children⟩

/-- Modelled from the spec: recursive search for the container across a
sequence (see `insertIntoElem`). -/
def insertIntoList (cid : String) (index : Option Int) (a : BuilderElement) :
    List BuilderElement → List BuilderElement
  | [] => []
  | e :: rest => insertIntoElem cid index a e :: insertIntoList cid index a rest

end

/-- Modelled from the spec: `insert(newElement, index?, containerId?)` of
spec 4.1 — into the root sequence when `containerId` is absent, else into
the matching container's children (silent no-op when the container does
not exist). -/
def addElementOp (elements : List BuilderElement) (e : BuilderElement)
    (index : Option Int) (containerId : Option String) : List BuilderElement :=
  match containerId with
  | none => insertSeq elements index e
  | some cid => insertIntoList cid index e elements

mutual

/-- Modelled from the spec: `remove(id)` of spec 4.1 recursing into one
element's children (see `removeFromList`). -/
def removeFromElem (i : String) : BuilderElement → BuilderElement
  | ⟨eid, t, c, p, children⟩ => ⟨eid, t, c, p, removeFromList i children⟩

/-- Modelled from the spec: `remove(id)` of spec 4.1 — "deletes the node
with this `id` wherever it occurs in the tree (searches root and all
nested `children`)"; every node carrying the id is deleted. -/
def removeFromList (i : String) : List BuilderElement → List BuilderElement
  | [] => []
  | e :: rest =>
    if e.id = i then removeFromList i rest
    else removeFromElem i e :: removeFromList i rest

end

/-- Modelled from the spec: `move(sourceIndex, destinationIndex)` of
spec 4.1 restricted to one sequence — remove the element at
`sourceIndex` (silent no-op when out of range, spec 7 not-found policy)
and reinsert it at the destination index clamped into the shortened
sequence. -/
def moveInSeq (l : List BuilderElement) (s d : Int) : List BuilderElement :=
  if s < 0 then l else
  match l.get? s.toNat with
  | none => l
  | some a => insertAt (l.eraseIdx s.toNat) (clampIndex (l.length - 1) d) a

mutual

/-- Modelled from the spec: `move` applied inside the children of the
node matching `containerId` (see `moveElementOp`). -/
def moveIntoElem (cid : String) (s d : Int) : BuilderElement → BuilderElement
  | ⟨eid, t, c, p, children⟩ =>
    if eid = cid then ⟨eid, t, c, p, moveInSeq children s d⟩
    else ⟨eid, t, c, p, moveIntoList cid s d children⟩

/-- Modelled from the spec: recursive container search for `move`. -/
def moveIntoList (cid : String) (s d : Int) :
    List BuilderElement → List BuilderElement
  | [] => []
  | e :: rest => moveIntoElem cid s d e :: moveIntoList cid s d rest

end

/-- Modelled from the spec: `move(sourceIndex, destinationIndex,
containerId?)` of spec 4.1 — same-container reorder at the root sequence
or inside the matching container. -/
def moveElementOp (elements : List BuilderElement) (s d : Int)
    (containerId : Option String) : List BuilderElement :=
  match containerId with
  | none => moveInSeq elements s d
  | some cid => moveIntoList cid s d elements

/-- A mutation of the Element Tree Store requested by the drop handler,
in the order the handler issues them.  `remove` is the deferred
`setTimeout` removal of `handleDrop`. -/
inductive StoreCall where
  | add (e : BuilderElement) (index : Option Int) (containerId : Option String)
  | move (sourceIndex destinationIndex : Int) (containerId : Option String)
  | remove (id : String)

/-- Interpret one store call with the spec-modelled operations. -/
def applyCall (elements : List BuilderElement) : StoreCall → List BuilderElement
  | .add e idx cid => addElementOp elements e idx cid
  | .move s d cid => moveElementOp elements s d cid
  | .remove i => removeFromList i elements

/-- Interpret a sequence of store calls left to right (the order the
handler performs them). -/
def applyCalls (elements : List BuilderElement) : List StoreCall → List BuilderElement
  | [] => elements
  | c :: cs => applyCalls (applyCall elements c) cs

/-- JavaScript `findIndex` over element ids: the index of the first
element with the id, `-1` when absent. -/
def findIdxInt (l : List BuilderElement) (i : String) : Int :=
  match l.findIdx? (fun e => e.id == i) with
  | some n => (n : Int)
  | none => -1

/-- `findElementIndex` from `NavbarElement.tsx` (drop handler helper):
without a `parentId` look at the root sequence, otherwise at the children
of the container found by `findElementById`; `-1` when the container is
missing or the element is not among the inspected children. -/
def findElementIndex (elements : List BuilderElement) (elementId : String)
    (parentId : Option String) : Int :=
  match parentId with
  | none => findIdxInt elements elementId
  | some pid =>
    match findElementById elements pid with
    | some parent => findIdxInt parent.children elementId
    | none => -1

/-- The drop-target state computed by `findDropTarget`: whether the
pointer is in the top half, and the hovered element id when one
resolved. -/
structure DropTarget where
  top : Bool
  element : Option String

/-- The parsed drag payload `{id?, type, content?, props?, parentId?,
sourceIndex?}` (spec 6).  `sourceIndex` keeps the code's `Number(...)`
value, so it is an integer. -/
structure DragPayload where
  id : Option String
  type : String
  content : Option String
  props : List (String × String)
  parentId : Option String
  sourceIndex : Option Int

/-- The three shapes `handleDrop` distinguishes for the raw
`dataTransfer` payload: an empty `getData` result, data on which
`JSON.parse` throws (caught by the surrounding `try`), and parsed data. -/
inductive DropData where
  | missing
  | malformed
  | parsed (d : DragPayload)

/-- What one invocation of `handleDrop` does to its collaborators: the
store mutations it requests, in order, and the titles of the toast
notifications it shows. -/
structure DropOutcome where
  calls : List StoreCall
  toasts : List String

/-- Default `props` the handler supplies for a dropped `productsList`
palette item (values abstracted to strings). -/
def productsListDefaults : List (String × String) :=
  [("columns", "3"), ("productsPerPage", "6"), ("showPagination", "true"),
   ("cardStyle", "default"), ("sortBy", "created_at"), ("sortOrder", "desc"),
   ("categoryFilter", "all")]

/-- JavaScript object spread `{ ...base, ...overrides }` on keyed maps:
base keys keep their position but take the overriding value; keys only in
`overrides` follow. -/
def spreadMerge (base overrides : List (String × String)) :
    List (String × String) :=
  base.map (fun kv =>
    match overrides.find? (fun kv2 => kv2.1 == kv.1) with
    | some kv2 => kv2
    | none => kv) ++
    overrides.filter (fun kv2 => !(base.any (fun kv => kv.1 == kv2.1)))

/-- `handleDrop` of `CanvasDragDropHandler` (`NavbarElement.tsx`,
lines 581-744) as a pure function from the handler's inputs to the store
calls and toasts it produces.  Modelling notes:
* `freshId` stands for the `uuidv4()` value generated for a palette drop;
* the two-argument calls `addElement(x, containerId)` (lines 649, 720,
  725), logged as appending "at the end", are modelled as an append into
  that container, matching spec 4.1 with the index omitted;
* JavaScript `undefined`/`null` for absent ids collapse to `none`, so the
  strict comparison `sourceParentId === containerId` becomes equality of
  options;
* the `setTimeout` removal is the trailing `remove` call: it runs after
  the insertion but within the same drop handling. -/
def handleDrop (elements : List BuilderElement) (containerId : Option String)
    (dropTarget : DropTarget) (payload : DropData) (isPreviewMode : Bool)
    (freshId : String) : DropOutcome :=
  if isPreviewMode then ⟨[], []⟩ else
  match payload with
  | .missing => ⟨[], []⟩
  | .malformed => ⟨[], ["Error"]⟩
  | .parsed d =>
    match d.id with
    | none =>
      -- Add new element from palette
      let base : BuilderElement := ⟨freshId, d.type, d.content.getD "", d.props, []⟩
      let newElement : BuilderElement :=
        if d.type = "productsList" then
          { base with props := spreadMerge productsListDefaults base.props }
        else base
      let fallback : DropOutcome :=
        match containerId with
        | some cid =>
          match findElementById elements cid with
          | some _ => ⟨[.add newElement none containerId], ["Element Added"]⟩
          | none => ⟨[], ["Element Added"]⟩
        | none => ⟨[.add newElement none none], ["Element Added"]⟩
      match dropTarget.element, containerId with
      | some tid, some _ =>
        let targetIndex := findElementIndex elements tid containerId
        if targetIndex ≠ -1 then
          let insertIndex := if dropTarget.top then targetIndex else targetIndex + 1
          ⟨[.add newElement (some insertIndex) containerId], ["Element Added"]⟩
        else fallback
      | _, _ => fallback
    | some eid =>
      -- Element already exists, handle moving
      match findElementById elements eid with
      | none => ⟨[], []⟩
      | some sourceElement =>
        let sourceParentId := d.parentId
        let sourceIndex : Int := d.sourceIndex.getD (-1)
        let sameContainer : Option DropOutcome :=
          if sourceParentId = containerId then
            let targeted : Option DropOutcome :=
              match dropTarget.element with
              | some tid =>
                if tid ≠ eid then
                  let targetIndex := findElementIndex elements tid containerId
                  if targetIndex ≠ -1 then
                    let adjustedTargetIndex :=
                      if dropTarget.top then targetIndex else targetIndex + 1
                    let destinationIndex :=
                      if sourceIndex ≠ -1 ∧ sourceIndex < targetIndex then
                        adjustedTargetIndex - 1
                      else adjustedTargetIndex
                    some ⟨[.move sourceIndex destinationIndex sourceParentId], []⟩
                  else none
                else none
              | none => none
            match targeted with
            | some o => some o
            | none =>
              if containerId = none ∧ sourceIndex ≠ -1 then
                some ⟨[.move sourceIndex ((elements.length : Int) - 1) none], []⟩
              else none
          else none
        match sameContainer with
        | some o => o
        | none =>
          -- Moving between different containers: shallow spread copy
          let elementCopy := sourceElement
          let addCall : StoreCall :=
            match dropTarget.element with
            | some tid =>
              let targetIndex := findElementIndex elements tid containerId
              if targetIndex ≠ -1 then
                .add elementCopy
                  (some (if dropTarget.top then targetIndex else targetIndex + 1))
                  containerId
              else .add elementCopy none containerId
            | none => .add elementCopy none containerId
          if sourceIndex ≠ -1 then ⟨[addCall, .remove eid], []⟩
          else ⟨[addCall], []⟩

/-- Page metadata stored per page (`pagesSettings` values and the
document's `pageSettings`); the code only ever constructs and compares
the `title` field (`{ title: websiteName }`). -/
structure PageSettings where
  title : String
deriving Repr, DecidableEq

/-- A `Page` of the website (`id`, `title`, `slug`, `isHomePage`), as in
`src/pages/Builder.tsx` / spec 3. -/
structure Page where
  id : String
  title : String
  slug : String
  isHomePage : Bool
deriving Repr, DecidableEq

/-- `website.settings`: the ordered page list plus the keyed maps
`pagesContent` and `pagesSettings`, modelled as functions from page id
(JavaScript object lookup); an absent map is the everywhere-`none`
function. -/
structure WebsiteSettings where
  pages : List Page
  pagesContent : String → Option (List BuilderElement)
  pagesSettings : String → Option PageSettings

/-- The website document: legacy top-level `content`, document-level
`pageSettings` and the `settings` aggregate (spec 3). -/
structure Website where
  content : List BuilderElement
  pageSettings : PageSettings
  settings : WebsiteSettings

/-- Injective stand-in for `uuidv4()`: the n-th generated identifier.
Distinctness of successively generated ids is the only property the
claims use. -/
def uuidModel (n : Nat) : String := String.mk (List.replicate (n + 1) 'u')

/-- `ensureRequiredPages` from `src/pages/Builder.tsx` (lines 181-246) as
a pure function of the page list; `fresh` numbers the `uuidv4()` calls.
Returns the updated page list together with the code's `hasChanged` flag
(which gates the `saveWebsite` persistence call). -/
def ensureRequiredPages (pages : List Page) (fresh : Nat) : List Page × Bool :=
  -- Check for Home page
  let step1 : List Page × Bool × Nat :=
    match pages.find? (fun page => page.isHomePage || lowerStr page.title == "home") with
    | none =>
      (pages ++ [⟨uuidModel fresh, "Home", "/", true⟩], true, fresh + 1)
    | some homePage =>
      if homePage.isHomePage then (pages, false, fresh)
      else
        (pages.map (fun p => if p.id = homePage.id then { p with isHomePage := true } else p),
         true, fresh)
  let u1 := step1.1
  -- Check for Shop page
  let step2 : List Page × Bool × Nat :=
    match u1.find? (fun page => lowerStr page.title == "shop") with
    | none => (u1 ++ [⟨uuidModel step1.2.2, "Shop", "/shop", false⟩], true, step1.2.2 + 1)
    | some _ => (u1, false, step1.2.2)
  let u2 := step2.1
  -- Add About page if it does not exist
  let step3 : List Page × Bool :=
    match u2.find? (fun page => lowerStr page.title == "about") with
    | none => (u2 ++ [⟨uuidModel step2.2.2, "About", "/about", false⟩], true)
    | some _ => (u2, false)
  (step3.1, step1.2.1 || step2.2.1 || step3.2)

/-- The page-content loading effect of `src/pages/Builder.tsx`
(lines 147-165) as a pure function: `elements` is the legacy website
content supplied by `useWebsite` that the effect closes over. -/
def loadPageContent (website : Website) (websiteName : String)
    (elements : List BuilderElement) (currentPageId : String) :
    List BuilderElement × PageSettings :=
  let pageContent := (website.settings.pagesContent currentPageId).getD []
  let pageSettings :=
    (website.settings.pagesSettings currentPageId).getD ⟨websiteName⟩
  (if pageContent.length ≠ 0 then pageContent else elements, pageSettings)

/-- JavaScript keyed-map assignment `m[k] = v` on the function model of
an object (the code first deep-copies the map, which the value semantics
make implicit). -/
def mapInsert {α : Type} (m : String → Option α) (k : String) (v : α) :
    String → Option α :=
  fun k2 => if k2 = k then some v else m k2

/-- `handleSaveComplete` from `src/pages/Builder.tsx` (lines 262-307)
restricted to its document update: deep-copy `pagesContent` /
`pagesSettings`, write the entries for the current page, and — when the
page is the home page — replace the legacy top-level `content` too.  The
`saveWebsite` call persists exactly these fields. -/
def commitPageContent (website : Website) (currentPageId : String)
    (updatedElements : List BuilderElement)
    (updatedPageSettings : PageSettings) : Website :=
  let pagesContent := mapInsert website.settings.pagesContent currentPageId updatedElements
  let pagesSettings := mapInsert website.settings.pagesSettings currentPageId updatedPageSettings
  let isHomePage :=
    ((website.settings.pages.find? (fun p => p.isHomePage)).map (fun p => p.id)) = some currentPageId
  { content := if isHomePage then updatedElements else website.content
    pageSettings := updatedPageSettings
    settings :=
      { pages := website.settings.pages
        pagesContent := pagesContent
        pagesSettings := pagesSettings } }

/-- `updateSaveStatus` from `src/pages/Builder.tsx` (lines 47-77; the
same code appears in `src/pages/builder/Shop.tsx` lines 39-69), as the
pure derivation of the status string from the elapsed whole seconds and
the locale-formatted clock time (`toLocaleTimeString`) of the last save. -/
def saveStatusText (diffInSeconds : Nat) (formattedTime : String) : String :=
  if diffInSeconds < 60 then
    "Saved " ++ toString diffInSeconds ++ " seconds ago"
  else if diffInSeconds < 3600 then
    let minutes := diffInSeconds / 60
    "Saved " ++ toString minutes ++ " minute" ++ (if minutes > 1 then "s" else "") ++ " ago"
  else
    "Saved at " ++ formattedTime

/-- The elapsed-seconds computation feeding `saveStatusText`:
`Math.floor((now - lastSaved) / 1000)` on millisecond timestamps
(`now ≥ lastSaved` for a save in the past). -/
def elapsedSeconds (nowMs lastSavedMs : Nat) : Nat := (nowMs - lastSavedMs) / 1000

/-- The complete status derivation of the `updateSaveStatus` closure. -/
def updateSaveStatus (nowMs lastSavedMs : Nat) (formattedTime : String) : String :=
  saveStatusText (elapsedSeconds nowMs lastSavedMs) formattedTime

/-- A leaf element used in concrete scenarios. -/
def leafElem (i : String) : BuilderElement := ⟨i, "text", "", [], []⟩

/-- A container element with given children, used in concrete scenarios. -/
def containerElem (i : String) (cs : List BuilderElement) : BuilderElement :=
  ⟨i, "section", "", [], cs⟩

/-- A website whose `pagesContent` / `pagesSettings` maps are empty while
the legacy top-level `content` is nonempty, with no pages declared. -/
def emptySettingsSite : Website :=
  ⟨[leafElem "x"], ⟨"site"⟩, ⟨[], fun _ => none, fun _ => none⟩⟩

/-- A website carrying stored content and settings entries for page `p`. -/
def populatedSite : Website :=
  ⟨[], ⟨"site"⟩,
   ⟨[], mapInsert (fun _ => none) "p" [leafElem "y"],
    mapInsert (fun _ => none) "p" ⟨"About page"⟩⟩⟩

/-- Cross-container drop scenario: element `e` (with a descendant `f`)
lives in container `a`; container `b` is the drop destination. -/
def crossDropTree : List BuilderElement :=
  [containerElem "a" [containerElem "e" [leafElem "f"]], containerElem "b" []]

/-- The drag payload referencing existing element `e` of container `a`
at source index 0. -/
def crossDropPayload : DragPayload :=
  ⟨some "e", "section", none, [], some "a", some 0⟩

/-- The store calls and toasts `handleDrop` produces for the
cross-container scenario. -/
def crossDropOutcome : DropOutcome :=
  handleDrop crossDropTree (some "b") ⟨true, none⟩ (.parsed crossDropPayload)
    false "fresh"

/-- Successive generated identifiers are distinct. -/
theorem uuidModel_injective (a b : Nat) (h : uuidModel a = uuidModel b) : a = b := by
  have hlen := congrArg (fun s => s.data.length) h
  simp only [uuidModel] at hlen
  simpa using hlen

/-- C10: no element type is gated at two plan tiers at once — the premium
catalog of `isPremiumElement` and the enterprise catalog of
`isEnterpriseElement` are disjoint, so their conjunction is everywhere
false. -/
theorem premium_enterprise_tiering_disjoint (t : String) :
    (isPremiumElement t && isEnterpriseElement t) = false := by
  cases hp : isPremiumElement t with
  | false => simp
  | true =>
    simp only [Bool.true_and]
    have hmem := hp
    unfold isPremiumElement at hmem
    rw [List.contains_iff_exists_mem_beq] at hmem
    obtain ⟨a, ha, hbeq⟩ := hmem
    have ht : t = a := by simpa using hbeq
    subst ht
    fin_cases ha <;> rfl

/-- C9: the save-status string is "Saved N seconds ago" for elapsed whole
seconds N < 60, "Saved M minute(s) ago" with M = ⌊N / 60⌋ and a plural
"s" exactly when M > 1 for 60 ≤ N < 3600, and "Saved at <time>"
otherwise; the elapsed seconds are the floor of the millisecond
difference. -/
theorem saveStatus_format (nowMs lastMs : Nat) (fmt : String) :
    (∀ n, elapsedSeconds nowMs lastMs = n →
      ((n < 60 → updateSaveStatus nowMs lastMs fmt =
          "Saved " ++ toString n ++ " seconds ago") ∧
       (60 ≤ n → n < 3600 → updateSaveStatus nowMs lastMs fmt =
          "Saved " ++ toString (n / 60) ++ " minute" ++
            (if n / 60 > 1 then "s" else "") ++ " ago") ∧
       (3600 ≤ n → updateSaveStatus nowMs lastMs fmt = "Saved at " ++ fmt))) ∧
    elapsedSeconds nowMs lastMs = (nowMs - lastMs) / 1000 := by
  refine ⟨fun n hn => ⟨fun h => ?_, fun h1 h2 => ?_, fun h => ?_⟩, rfl⟩ <;>
    unfold updateSaveStatus saveStatusText <;> rw [hn]
  · rw [if_pos h]
  · rw [if_neg (by omega), if_pos h2]
  · rw [if_neg (by omega), if_neg (by omega)]

/-- C9 witness: the three regimes at concrete elapsed times, including
the singular/plural minute boundary. -/
theorem saveStatus_format_witness :
    updateSaveStatus 31000 1000 "12:07" = "Saved 30 seconds ago" ∧
    updateSaveStatus 121000 1000 "12:07" = "Saved 2 minutes ago" ∧
    updateSaveStatus 61000 1000 "12:07" = "Saved 1 minute ago" ∧
    updateSaveStatus 4001000 1000 "12:07" = "Saved at 12:07" :=
  ⟨(((saveStatus_format 31000 1000 "12:07").1 30 (by decide)).1 (by decide)).trans (by decide),
   (((saveStatus_format 121000 1000 "12:07").1 120 (by decide)).2.1 (by decide) (by decide)).trans
     (by decide),
   (((saveStatus_format 61000 1000 "12:07").1 60 (by decide)).2.1 (by decide) (by decide)).trans
     (by decide),
   (((saveStatus_format 4001000 1000 "12:07").1 4000 (by decide)).2.2 (by decide)).trans
     (by decide)⟩

/-- C5: on a document with zero pages, `ensureRequiredPages` creates Home
(`isHomePage`, slug "/"), Shop (slug "/shop") and About (slug "/about")
with three distinct freshly generated ids and reports a change; applying
it again to the result changes nothing and reports no change. -/
theorem ensureRequiredPages_empty_then_idempotent (f f2 : Nat) :
    (ensureRequiredPages [] f).1 =
      [⟨uuidModel f, "Home", "/", true⟩,
       ⟨uuidModel (f + 1), "Shop", "/shop", false⟩,
       ⟨uuidModel (f + 2), "About", "/about", false⟩] ∧
    (ensureRequiredPages [] f).2 = true ∧
    (uuidModel f ≠ uuidModel (f + 1) ∧ uuidModel f ≠ uuidModel (f + 2) ∧
      uuidModel (f + 1) ≠ uuidModel (f + 2)) ∧
    ensureRequiredPages (ensureRequiredPages [] f).1 f2 =
      ((ensureRequiredPages [] f).1, false) := by
  refine ⟨rfl, rfl, ⟨?_, ?_, ?_⟩, rfl⟩ <;>
    exact fun h => by have := uuidModel_injective _ _ h; omega

mutual

/-- `findInElem` searches the pre-order flattening of its element. -/
theorem findInElem_eq_preorder (e : BuilderElement) (i : String) :
    findInElem e i = (preorderElem e).find? (fun x => x.id == i) := by
  match e with
  | ⟨eid, t, c, p, children⟩ =>
    rw [findInElem, preorderElem]
    by_cases h : eid = i
    · simp [h]
    · rw [if_neg h, List.find?_cons_of_neg _ (by simpa using h),
        findElementById_eq_preorder children i]

/-- `findElementById` searches the pre-order flattening of its sequence:
it is the first-match search over the depth-first pre-order traversal. -/
theorem findElementById_eq_preorder (es : List BuilderElement) (i : String) :
    findElementById es i = (preorderList es).find? (fun x => x.id == i) := by
  match es with
  | [] => rfl
  | e :: rest =>
    rw [findElementById, preorderList, List.find?_append, ← findInElem_eq_preorder e i,
      ← findElementById_eq_preorder rest i]
    cases findInElem e i <;> rfl

end

/-- C8: `findElementById` is the depth-first pre-order search returning
the first element whose id equals the query, and it returns `none`
exactly when no element anywhere in the tree carries that id. -/
theorem findElementById_dfs_first_match (es : List BuilderElement) (i : String) :
    findElementById es i = (preorderList es).find? (fun e => e.id == i) ∧
    (findElementById es i = none ↔ ∀ e ∈ preorderList es, e.id ≠ i) := by
  refine ⟨findElementById_eq_preorder es i, ?_⟩
  rw [findElementById_eq_preorder es i, List.find?_eq_none]
  simp

/-- C3 counterexample: with no `pagesContent` / `pagesSettings` entry for
the page, the loading effect does not return an empty element sequence —
it falls back to the legacy website content (here nonempty), so the claim
fails at this input. -/
theorem loadPageContent_empty_claim_false :
    loadPageContent emptySettingsSite "site" emptySettingsSite.content "p" ≠
      ([], ⟨"site"⟩) := by
  simp [loadPageContent, emptySettingsSite, leafElem]

/-- C3 (amended): the effect returns `pagesContent[pageId]` only when the
entry is present and nonempty; with an absent or empty content entry it
falls back to the legacy elements supplied by `useWebsite` (not to the
empty sequence); the settings entry is returned when present, else the
default `{title: websiteName}`. -/
theorem loadPageContent_spec (w : Website) (name : String)
    (elements : List BuilderElement) (pid : String) :
    (∀ c, w.settings.pagesContent pid = some c → c ≠ [] →
      (loadPageContent w name elements pid).1 = c) ∧
    ((w.settings.pagesContent pid).getD [] = [] →
      (loadPageContent w name elements pid).1 = elements) ∧
    (∀ s, w.settings.pagesSettings pid = some s →
      (loadPageContent w name elements pid).2 = s) ∧
    (w.settings.pagesSettings pid = none →
      (loadPageContent w name elements pid).2 = ⟨name⟩) := by
  refine ⟨fun c hc hne => ?_, fun h => ?_, fun s hs => ?_, fun h => ?_⟩
  · simp [loadPageContent, hc, hne]
  · simp [loadPageContent, h]
  · simp [loadPageContent, hs]
  · simp [loadPageContent, h]

/-- C3 witness: the amended behaviour at concrete inputs — a stored
nonempty entry is returned, an absent entry falls back to the legacy
content, stored settings are returned, absent settings default. -/
theorem loadPageContent_spec_witness :
    (loadPageContent populatedSite "site" [] "p").1 = [leafElem "y"] ∧
    (loadPageContent emptySettingsSite "site" emptySettingsSite.content "p").1 =
      emptySettingsSite.content ∧
    (loadPageContent populatedSite "site" [] "p").2 = ⟨"About page"⟩ ∧
    (loadPageContent emptySettingsSite "site" [] "p").2 = ⟨"site"⟩ :=
  ⟨(loadPageContent_spec populatedSite "site" [] "p").1 [leafElem "y"] rfl (by simp),
   (loadPageContent_spec emptySettingsSite "site" emptySettingsSite.content "p").2.1 rfl,
   (loadPageContent_spec populatedSite "site" [] "p").2.2.1 ⟨"About page"⟩ rfl,
   (loadPageContent_spec emptySettingsSite "site" [] "p").2.2.2 rfl⟩

/-- C4 counterexample: committing an empty element list for a non-home
page and loading it back does not return what was committed — loading
falls back to the (nonempty) legacy content, so the round-trip claim
fails at this input. -/
theorem commit_load_roundtrip_claim_false :
    loadPageContent (commitPageContent emptySettingsSite "p" [] ⟨"t"⟩) "site"
        (commitPageContent emptySettingsSite "p" [] ⟨"t"⟩).content "p" ≠
      ([], ⟨"t"⟩) := by
  simp [loadPageContent, commitPageContent, emptySettingsSite, mapInsert, leafElem]

/-- C4 (amended): committing a nonempty element list together with page
settings and loading the same page returns exactly the committed
elements and settings; the restriction to nonempty lists is forced by
the legacy-content fallback of the loading effect. -/
theorem commit_load_roundtrip (w : Website) (name : String)
    (elements : List BuilderElement) (pid : String)
    (els : List BuilderElement) (ps : PageSettings) (h : els ≠ []) :
    loadPageContent (commitPageContent w pid els ps) name elements pid = (els, ps) := by
  simp [loadPageContent, commitPageContent, mapInsert, h]

/-- C4 witness: the amended round-trip at a concrete input. -/
theorem commit_load_roundtrip_witness :
    loadPageContent (commitPageContent emptySettingsSite "p" [leafElem "y"] ⟨"t"⟩)
        "site" [] "p" = ([leafElem "y"], ⟨"t"⟩) :=
  commit_load_roundtrip emptySettingsSite "site" [] "p" [leafElem "y"] ⟨"t"⟩ (by simp)

mutual

/-- Removing an id from an element's descendants leaves only the
element's own (possible) occurrence of that id. -/
theorem countIdElem_removeFromElem (i : String) (e : BuilderElement) :
    countIdElem i (removeFromElem i e) = if e.id = i then 1 else 0 := by
  match e with
  | ⟨eid, t, c, p, children⟩ =>
    rw [removeFromElem, countIdElem, countIdList_removeFromList i children]
    simp

/-- The spec-modelled `remove` deletes every occurrence of the id: the id
count of the result is zero. -/
theorem countIdList_removeFromList (i : String) (l : List BuilderElement) :
    countIdList i (removeFromList i l) = 0 := by
  match l with
  | [] => rfl
  | e :: rest =>
    rw [removeFromList]
    by_cases h : e.id = i
    · rw [if_pos h, countIdList_removeFromList i rest]
    · rw [if_neg h, countIdList, countIdElem_removeFromElem i e, if_neg h,
        countIdList_removeFromList i rest]

end

/-- C7 counterexample: a drop event with a missing payload aborts with no
store call but also with no user notification (the code only logs), so
the "surfaces a non-fatal user notification" part of the claim fails at
this input. -/
theorem missing_payload_no_notification :
    handleDrop [leafElem "a"] none ⟨true, none⟩ .missing false "fresh" = ⟨[], []⟩ := rfl

/-- C7 (amended): a missing payload aborts with the tree unchanged, no
store call and no notification (log only); an unparseable payload aborts
with the tree unchanged and a single non-fatal notification; in both
cases the handler returns normally (the surrounding try/catch keeps any
exception from the caller, which the totality of this model reflects). -/
theorem malformed_payload_aborts (elements : List BuilderElement)
    (containerId : Option String) (dropTarget : DropTarget) (fresh : String) :
    handleDrop elements containerId dropTarget .missing false fresh = ⟨[], []⟩ ∧
    handleDrop elements containerId dropTarget .malformed false fresh = ⟨[], ["Error"]⟩ ∧
    applyCalls elements [] = elements :=
  ⟨rfl, rfl, rfl⟩

/-- C2 counterexample: dropping root element `a` onto itself (payload id,
drop target and source container all refer to `a`) emits a move call and
reorders the root sequence from `[a, b]` to `[b, a]` — the tree does not
stay unchanged. -/
theorem drop_onto_itself_not_noop :
    (handleDrop [leafElem "a", leafElem "b"] none ⟨true, some "a"⟩
        (.parsed ⟨some "a", "text", none, [], none, some 0⟩) false "fresh").calls =
      [.move 0 1 none] ∧
    (applyCalls [leafElem "a", leafElem "b"]
        (handleDrop [leafElem "a", leafElem "b"] none ⟨true, some "a"⟩
          (.parsed ⟨some "a", "text", none, [], none, some 0⟩) false "fresh").calls).map
      BuilderElement.id = ["b", "a"] ∧
    ([leafElem "a", leafElem "b"]).map BuilderElement.id = ["a", "b"] :=
  ⟨rfl, rfl, rfl⟩

/-- C2 (amended): the id comparison only guards the targeted
same-container move; when an existing root element is dropped onto
itself, the handler falls back to moving it to the end of the root
sequence, so a self-drop is not in general a no-op. -/
theorem drop_onto_itself_root_moves_to_end (elements : List BuilderElement)
    (top : Bool) (eid ty : String) (co : Option String)
    (pr : List (String × String)) (s : Nat) (E : BuilderElement) (fresh : String)
    (hfound : findElementById elements eid = some E) :
    handleDrop elements none ⟨top, some eid⟩
        (.parsed ⟨some eid, ty, co, pr, none, some (s : Int)⟩) false fresh =
      ⟨[.move (s : Int) ((elements.length : Int) - 1) none], []⟩ := by
  have hs : ((s : Int)) ≠ -1 := by omega
  simp [handleDrop, hfound, hs]

/-- C2 amended witness: the root self-drop at a concrete input. -/
theorem drop_onto_itself_root_moves_to_end_witness :
    handleDrop [leafElem "a", leafElem "b"] none ⟨false, some "a"⟩
        (.parsed ⟨some "a", "text", none, [], none, some 1⟩) false "fresh" =
      ⟨[.move 1 1 none], []⟩ := by
  have h := drop_onto_itself_root_moves_to_end [leafElem "a", leafElem "b"] false "a"
    "text" none [] 1 (leafElem "a") "fresh" rfl
  simpa using h

/-- C6: for a same-container drag of an existing element with source
index `s` dropped onto a target at index `t` of the same container, the
destination index handed to `move` is `t` for a top-half drop and `t + 1`
for a bottom-half drop, decremented by one exactly when `s < t`. -/
theorem same_container_move_index (elements : List BuilderElement)
    (containerId : Option String) (top : Bool) (eid tid ty : String)
    (co : Option String) (pr : List (String × String)) (s t : Nat)
    (E : BuilderElement) (fresh : String)
    (hfound : findElementById elements eid = some E)
    (hne : tid ≠ eid)
    (ht : findElementIndex elements tid containerId = (t : Int)) :
    handleDrop elements containerId ⟨top, some tid⟩
        (.parsed ⟨some eid, ty, co, pr, containerId, some (s : Int)⟩) false fresh =
      ⟨[.move (s : Int)
          ((if top then (t : Int) else (t : Int) + 1) -
            (if (s : Int) < (t : Int) then 1 else 0))
          containerId], []⟩ := by
  have htne : ((t : Int)) ≠ -1 := by omega
  have hs : ((s : Int)) ≠ -1 := by omega
  simp only [handleDrop, Bool.false_eq_true, if_false, hfound, ht, hne, ne_eq,
    not_false_eq_true, if_true, htne, hs, true_and, ite_not, if_pos rfl]
  by_cases hlt : (s : Int) < (t : Int) <;> simp [hlt]

/-- C6 witness: moving `a` (source index 0) onto the top half of `c`
(target index 2) in the root container hands `move` the destination
index 1 = 2 - 1. -/
theorem same_container_move_index_witness :
    handleDrop [leafElem "a", leafElem "b", leafElem "c"] none ⟨true, some "c"⟩
        (.parsed ⟨some "a", "text", none, [], none, some 0⟩) false "fresh" =
      ⟨[.move 0 1 none], []⟩ := by
  have h := same_container_move_index [leafElem "a", leafElem "b", leafElem "c"]
    none true "a" "c" "text" none [] 0 2 (leafElem "a") "fresh" rfl (by decide) rfl
  simpa using h

/-- C1 counterexample: moving `e` from container `a` to container `b`
emits an insert of the copy followed by the deferred removal; after the
insert (an externally observable mutation boundary, since every store
mutation emits a change notification) the id `e` occurs twice in the
tree, and after the deferred removal — which deletes every node carrying
the id — it occurs zero times, not exactly once in `b`. -/
theorem cross_container_claim_false :
    crossDropOutcome.calls =
      [.add (containerElem "e" [leafElem "f"]) none (some "b"), .remove "e"] ∧
    countIdList "e"
      (applyCall crossDropTree
        (.add (containerElem "e" [leafElem "f"]) none (some "b"))) = 2 ∧
    countIdList "e" (applyCalls crossDropTree crossDropOutcome.calls) = 0 :=
  ⟨rfl, rfl, rfl⟩

/-- C1 (amended): on a cross-container drop of existing element E, the
inserted copy is E itself — a structural clone including all descendants
with the id unchanged — handed to `insert` for the destination
container, followed by the deferred `remove` of E's id; because copy and
original share the id, the removal (which deletes the node wherever it
occurs) leaves the id occurring zero times in the tree, and between the
two calls it occurs in two places, so the claimed
exactly-once-at-every-boundary invariant does not hold. -/
theorem cross_container_drop_calls (elements : List BuilderElement)
    (cid pid eid ty : String) (top : Bool) (co : Option String)
    (pr : List (String × String)) (s : Nat) (E : BuilderElement) (fresh : String)
    (hpar : pid ≠ cid)
    (hfound : findElementById elements eid = some E) :
    handleDrop elements (some cid) ⟨top, none⟩
        (.parsed ⟨some eid, ty, co, pr, some pid, some (s : Int)⟩) false fresh =
      ⟨[.add E none (some cid), .remove eid], []⟩ ∧
    countIdList eid
      (applyCalls elements [.add E none (some cid), .remove eid]) = 0 := by
  have hs : ((s : Int)) ≠ -1 := by omega
  constructor
  · simp [handleDrop, hfound, hs, hpar]
  · show countIdList eid
      (removeFromList eid (applyCall elements (.add E none (some cid)))) = 0
    exact countIdList_removeFromList eid _

/-- C1 amended witness: the cross-container scenario at concrete input. -/
theorem cross_container_drop_calls_witness :
    handleDrop crossDropTree (some "b") ⟨true, none⟩ (.parsed crossDropPayload)
        false "fresh" =
      ⟨[.add (containerElem "e" [leafElem "f"]) none (some "b"), .remove "e"], []⟩ ∧
    countIdList "e"
      (applyCalls crossDropTree
        [.add (containerElem "e" [leafElem "f"]) none (some "b"), .remove "e"]) = 0 :=
  cross_container_drop_calls crossDropTree "b" "a" "e" "section" true none [] 0
    (containerElem "e" [leafElem "f"]) "fresh" (by decide) rfl
